import Mathlib

/-!
Verification of the promopulse business-rule core: the promotion lifecycle
service (`promopulse/domain/promotions/service.py`), the subscription
validation service (`promopulse/domain/subscriptions/service.py`) and the
persistence adapters they drive
(`promopulse/infrastructure/{promotions,subscriptions}/repository.py`,
`promopulse/db/models/{promotion,subscription}.py`).

The relational store is embedded as an explicit state (`St`) holding the user
ids, the promotion rows and the subscription rows; each service operation is a
pure function `St → Except Err (St × Entity)`.  Datetimes are embedded as `Int`;
`created_at` timestamps come from a monotonically increasing logical clock in
the state (`server_default=func.now()`), which makes creation order observable
to the `ORDER BY created_at DESC` list queries.  The store-maintained
`updated_at` audit column and the opaque subscription `metadata` passthrough
are not modelled: no claim depends on them.  The database's integrity
constraints on the subscriptions table — the unconditional UNIQUE constraint on
`(user_id, promotion_id)` and the two NOT NULL foreign keys — are embedded in
`SubscriptionRepository.create`, which reports which constraint fired; the
service layer catches every such `IntegrityError` uniformly.
-/

namespace PromoPulse

/-- `PromotionStatus` from `promopulse/db/models/promotion.py`:
DRAFT / ACTIVE / ENDED, a `str`-valued enum. -/
inductive PromotionStatus where
  | draft
  | active
  | ended
deriving DecidableEq, Repr

/-- The `.value` of the `str` enum member. -/
def PromotionStatus.value : PromotionStatus → String
  | .draft => "draft"
  | .active => "active"
  | .ended => "ended"

/-- A `promotions` row (`Promotion` model).  `updated_at` is store-maintained
and not modelled. -/
structure Promotion where
  id : Nat
  name : String
  description : Option String
  status : PromotionStatus
  start_at : Int
  end_at : Int
  created_at : Nat
  created_by : Nat
deriving DecidableEq, Repr

/-- A `subscriptions` row (`Subscription` model).  The opaque `metadata` JSON
payload is not modelled. -/
structure Subscription where
  id : Nat
  user_id : Nat
  promotion_id : Nat
  is_active : Bool
  created_at : Nat
deriving DecidableEq, Repr

/-- The relational store, plus the id sequences and the logical clock that
stands in for `func.now()`. -/
structure St where
  users : List Nat
  promotions : List Promotion
  subscriptions : List Subscription
  nextPromotionId : Nat
  nextSubscriptionId : Nat
  clock : Nat
deriving DecidableEq, Repr

/-- Errors raised by `PromotionService`
(`promopulse/domain/promotions/exceptions.py`).  The transition and
editability errors carry the `.value` strings the code passes to the
exception constructors. -/
inductive PromoError where
  | notFound (promotion_id : Nat)
  | invalidTimeRange
  | invalidStatusTransition (current_status target_status : String)
  | notEditable (status field : String)
deriving DecidableEq, Repr

/-- Errors raised by `SubscriptionService`
(`promopulse/domain/subscriptions/exceptions.py`). -/
inductive SubError where
  | userNotFound (user_id : Nat)
  | promotionNotActive (promotion_id : Nat) (status : String)
  | duplicateSubscription (user_id promotion_id : Nat)
  | alreadyInactive (subscription_id : Nat)
  | notFound (subscription_id : Nat)
deriving DecidableEq, Repr

/-- Which integrity constraint of the `subscriptions` table fired: the
`uq_subscription_user_promotion` UNIQUE constraint, or one of the two
NOT NULL foreign keys (`user_id → users.id`, `promotion_id → promotions.id`). -/
inductive IntegrityKind where
  | uniqueViolation
  | fkUserViolation
  | fkPromotionViolation
deriving DecidableEq, Repr

/-! ## Persistence adapters -/

/-- `PromotionRepository.get_by_id`: `SELECT ... WHERE id = promotion_id`. -/
def get_promotion_by_id (st : St) (promotion_id : Nat) : Option Promotion :=
  st.promotions.find? (fun p => p.id == promotion_id)

/-- `UserRepository.get_by_id`, reduced to existence of the id (the claims use
nothing else of the user row). -/
def user_exists (st : St) (user_id : Nat) : Bool :=
  st.users.contains user_id

/-- `SubscriptionRepository.get_by_id`. -/
def get_subscription_by_id (st : St) (subscription_id : Nat) : Option Subscription :=
  st.subscriptions.find? (fun s => s.id == subscription_id)

/-- `SubscriptionRepository.get_active_subscription`: the row with this
`(user_id, promotion_id)` and `is_active = true`, if any. -/
def get_active_subscription (st : St) (user_id promotion_id : Nat) : Option Subscription :=
  st.subscriptions.find?
    (fun s => s.user_id == user_id && s.promotion_id == promotion_id && s.is_active)

/-- Write back a promotion row: the row with the same primary key is replaced
(the ORM mutates the fetched object in place and commits). -/
def replacePromotion (st : St) (p : Promotion) : St :=
  { st with promotions := st.promotions.map (fun q => if q.id == p.id then p else q) }

/-- Write back a subscription row. -/
def replaceSubscription (st : St) (s : Subscription) : St :=
  { st with subscriptions := st.subscriptions.map (fun t => if t.id == s.id then s else t) }

/-- `PromotionRepository.create`: insert the row and commit; `created_at` is
assigned by the store (`func.now()`). -/
def promotion_repo_create (st : St) (name : String) (description : Option String)
    (start_at end_at : Int) (created_by : Nat) (status : PromotionStatus) :
    St × Promotion :=
  let p : Promotion :=
    { id := st.nextPromotionId, name := name, description := description,
      status := status, start_at := start_at, end_at := end_at,
      created_at := st.clock, created_by := created_by }
  ({ st with promotions := st.promotions ++ [p],
             nextPromotionId := st.nextPromotionId + 1,
             clock := st.clock + 1 }, p)

/-- `SubscriptionRepository.create`: inserts with `is_active=True`; the commit
raises `IntegrityError` when an integrity constraint of the table is violated —
the unconditional UNIQUE on `(user_id, promotion_id)` or either foreign key. -/
def subscription_repo_create (st : St) (user_id promotion_id : Nat) :
    Except IntegrityKind (St × Subscription) :=
  if st.subscriptions.any (fun s => s.user_id == user_id && s.promotion_id == promotion_id) then
    .error .uniqueViolation
  else if !(user_exists st user_id) then
    .error .fkUserViolation
  else if (get_promotion_by_id st promotion_id).isNone then
    .error .fkPromotionViolation
  else
    let s : Subscription :=
      { id := st.nextSubscriptionId, user_id := user_id, promotion_id := promotion_id,
        is_active := true, created_at := st.clock }
    .ok ({ st with subscriptions := st.subscriptions ++ [s],
                   nextSubscriptionId := st.nextSubscriptionId + 1,
                   clock := st.clock + 1 }, s)

/-! ## Promotion lifecycle service -/

/-- `PromotionService.VALID_TRANSITIONS`: DRAFT→ACTIVE, ACTIVE→ENDED, ENDED
terminal. -/
def VALID_TRANSITIONS : PromotionStatus → List PromotionStatus
  | .draft => [.active]
  | .active => [.ended]
  | .ended => []

/-- `PromotionService.EDITABLE_FIELDS`, keyed by the field names of the update
payload. -/
def EDITABLE_FIELDS : PromotionStatus → List String
  | .draft => ["name", "description", "start_at", "end_at"]
  | .active => ["name", "description"]
  | .ended => []

/-- `PromotionService._validate_time_range`. -/
def validate_time_range (start_at end_at : Int) : Except PromoError Unit :=
  if end_at ≤ start_at then .error .invalidTimeRange else .ok ()

/-- `PromotionService._validate_status_transition`: `current == target` returns
early; otherwise the target must be in the allowed list. -/
def validate_status_transition (current_status target_status : PromotionStatus) :
    Except PromoError Unit :=
  if current_status = target_status then .ok ()
  else if (VALID_TRANSITIONS current_status).contains target_status then .ok ()
  else .error (.invalidStatusTransition current_status.value target_status.value)

/-- `PromotionService._validate_field_editable`. -/
def validate_field_editable (status : PromotionStatus) (field : String) :
    Except PromoError Unit :=
  if (EDITABLE_FIELDS status).contains field then .ok ()
  else .error (.notEditable status.value field)

/-- The `for field_name in update_data.keys(): self._validate_field_editable`
loop, failing on the first non-editable field. -/
def validate_fields_editable (status : PromotionStatus) : List String → Except PromoError Unit
  | [] => .ok ()
  | f :: fs =>
    match validate_field_editable status f with
    | .error e => .error e
    | .ok _ => validate_fields_editable status fs

/-- `PromotionCreatePayload` (the service-visible fields). -/
structure PromotionCreatePayload where
  name : String
  description : Option String
  start_at : Int
  end_at : Int
deriving DecidableEq, Repr

/-- `PromotionUpdatePayload` after `model_dump(exclude_unset=True)`: each outer
`Option` records whether the field was supplied.  `description` can be
supplied as null, hence the nested `Option`. -/
structure PromotionUpdatePayload where
  name : Option String
  description : Option (Option String)
  start_at : Option Int
  end_at : Option Int
deriving DecidableEq, Repr

/-- `update_data.keys()`: the supplied fields, in the payload's declaration
order (pydantic's `model_dump` preserves field declaration order). -/
def PromotionUpdatePayload.setFields (u : PromotionUpdatePayload) : List String :=
  (if u.name.isSome then ["name"] else []) ++
  (if u.description.isSome then ["description"] else []) ++
  (if u.start_at.isSome then ["start_at"] else []) ++
  (if u.end_at.isSome then ["end_at"] else [])

/-- `setattr(promotion, field, value)` for each supplied field:
unsupplied fields keep their stored values. -/
def applyUpdate (p : Promotion) (u : PromotionUpdatePayload) : Promotion :=
  { p with
    name := u.name.getD p.name,
    description := u.description.getD p.description,
    start_at := u.start_at.getD p.start_at,
    end_at := u.end_at.getD p.end_at }

/-- `PromotionService.create_promotion`: validate the time range, then persist
in DRAFT. -/
def create_promotion (st : St) (payload : PromotionCreatePayload)
    (created_by_user_id : Nat) : Except PromoError (St × Promotion) :=
  match validate_time_range payload.start_at payload.end_at with
  | .error e => .error e
  | .ok _ =>
    .ok (promotion_repo_create st payload.name payload.description
          payload.start_at payload.end_at created_by_user_id .draft)

/-- `PromotionService.update_promotion`: fetch, check every supplied field is
editable in the current status, validate the effective time range when either
bound is supplied, then persist only the supplied fields. -/
def update_promotion (st : St) (promotion_id : Nat)
    (payload : PromotionUpdatePayload) : Except PromoError (St × Promotion) :=
  match get_promotion_by_id st promotion_id with
  | none => .error (.notFound promotion_id)
  | some promotion =>
    match validate_fields_editable promotion.status payload.setFields with
    | .error e => .error e
    | .ok _ =>
      if payload.start_at.isSome || payload.end_at.isSome then
        match validate_time_range (payload.start_at.getD promotion.start_at)
            (payload.end_at.getD promotion.end_at) with
        | .error e => .error e
        | .ok _ =>
          let updated := applyUpdate promotion payload
          .ok (replacePromotion st updated, updated)
      else
        let updated := applyUpdate promotion payload
        .ok (replacePromotion st updated, updated)

/-- `PromotionService.change_promotion_status`: fetch, validate transition,
persist the new status via `PromotionRepository.update_status`. -/
def change_promotion_status (st : St) (promotion_id : Nat)
    (target_status : PromotionStatus) : Except PromoError (St × Promotion) :=
  match get_promotion_by_id st promotion_id with
  | none => .error (.notFound promotion_id)
  | some promotion =>
    match validate_status_transition promotion.status target_status with
    | .error e => .error e
    | .ok _ =>
      let updated := { promotion with status := target_status }
      .ok (replacePromotion st updated, updated)

/-! ## Subscription validation service -/

/-- `SubscriptionService.create_subscription`, split over two store states: the
validations (steps 1–3) read `sVal`, the insert (step 4) runs against `sIns`.
Sequential calls use the same state for both (`create_subscription` below);
the separation makes the check-then-act window explicit, so the race where the
store changes between the checks and the insert is expressible.  Every
`IntegrityError` raised by the insert is caught and translated into
`DuplicateSubscriptionError`. -/
def create_subscription_at (sVal sIns : St) (user_id promotion_id : Nat) :
    Except SubError (St × Subscription) :=
  if !(user_exists sVal user_id) then
    .error (.userNotFound user_id)
  else
    match get_promotion_by_id sVal promotion_id with
    | none => .error (.promotionNotActive promotion_id "not_found")
    | some promotion =>
      if promotion.status ≠ PromotionStatus.active then
        .error (.promotionNotActive promotion_id promotion.status.value)
      else
        match get_active_subscription sVal user_id promotion_id with
        | some _ => .error (.duplicateSubscription user_id promotion_id)
        | none =>
          match subscription_repo_create sIns user_id promotion_id with
          | .ok r => .ok r
          | .error _ => .error (.duplicateSubscription user_id promotion_id)

/-- `SubscriptionService.create_subscription`, sequential: validations and
insert see the same store state. -/
def create_subscription (st : St) (user_id promotion_id : Nat) :
    Except SubError (St × Subscription) :=
  create_subscription_at st st user_id promotion_id

/-- `SubscriptionService.deactivate_subscription`: fetch, refuse when already
inactive, otherwise flip `is_active` to false and persist. -/
def deactivate_subscription (st : St) (subscription_id : Nat) :
    Except SubError (St × Subscription) :=
  match get_subscription_by_id st subscription_id with
  | none => .error (.notFound subscription_id)
  | some s =>
    if s.is_active = false then
      .error (.alreadyInactive subscription_id)
    else
      let updated := { s with is_active := false }
      .ok (replaceSubscription st updated, updated)

/-! ## List operations -/

/-- `ORDER BY created_at DESC`. -/
def createdDescP (a b : Promotion) : Prop := b.created_at ≤ a.created_at

instance : DecidableRel createdDescP :=
  fun a b => inferInstanceAs (Decidable (b.created_at ≤ a.created_at))

instance : IsTotal Promotion createdDescP :=
  ⟨fun a b => (le_total b.created_at a.created_at).imp id id⟩

instance : IsTrans Promotion createdDescP :=
  ⟨fun _ _ _ h h2 => le_trans h2 h⟩

/-- `ORDER BY created_at DESC` for subscription rows. -/
def createdDescS (a b : Subscription) : Prop := b.created_at ≤ a.created_at

instance : DecidableRel createdDescS :=
  fun a b => inferInstanceAs (Decidable (b.created_at ≤ a.created_at))

instance : IsTotal Subscription createdDescS :=
  ⟨fun a b => (le_total b.created_at a.created_at).imp id id⟩

instance : IsTrans Subscription createdDescS :=
  ⟨fun _ _ _ h h2 => le_trans h2 h⟩

/-- `LIMIT limit OFFSET offset` applied to an ordered result set. -/
def paginate (xs : List α) (limit offset : Nat) : List α :=
  (xs.drop offset).take limit

/-- `PromotionRepository.list_promotions`: the count query runs the same
filter without the pagination window; the page query orders by `created_at`
descending and applies limit/offset. -/
def list_promotions (st : St) (status_filter : Option PromotionStatus)
    (limit offset : Nat) : List Promotion × Nat :=
  let matching := st.promotions.filter
    (fun p => match status_filter with
              | none => true
              | some s => p.status == s)
  let total := matching.length
  (paginate (List.insertionSort createdDescP matching) limit offset, total)

/-- `SubscriptionRepository.list_by_user`: fixed `user_id` filter, optional
`is_active` filter, independent count, `created_at DESC` page. -/
def list_by_user (st : St) (user_id : Nat) (is_active : Option Bool)
    (limit offset : Nat) : List Subscription × Nat :=
  let matching := st.subscriptions.filter
    (fun s => s.user_id == user_id &&
              match is_active with
              | none => true
              | some b => s.is_active == b)
  let total := matching.length
  (paginate (List.insertionSort createdDescS matching) limit offset, total)

/-- `SubscriptionRepository.list_by_promotion`: symmetric to `list_by_user`
with the fixed filter on `promotion_id`. -/
def list_by_promotion (st : St) (promotion_id : Nat) (is_active : Option Bool)
    (limit offset : Nat) : List Subscription × Nat :=
  let matching := st.subscriptions.filter
    (fun s => s.promotion_id == promotion_id &&
              match is_active with
              | none => true
              | some b => s.is_active == b)
  let total := matching.length
  (paginate (List.insertionSort createdDescS matching) limit offset, total)

/-! ## The operation alphabet -/

/-- Every mutating operation the services expose (plus user creation, which
only registers an id for the existence check). -/
inductive Op where
  | addUser (user_id : Nat)
  | createPromotion (payload : PromotionCreatePayload) (created_by : Nat)
  | updatePromotion (promotion_id : Nat) (payload : PromotionUpdatePayload)
  | changeStatus (promotion_id : Nat) (target : PromotionStatus)
  | createSubscription (user_id promotion_id : Nat)
  | deactivateSubscription (subscription_id : Nat)
deriving DecidableEq, Repr

/-- The state after running one operation; a failing operation raises before
persisting, leaving the store untouched. -/
def step (st : St) : Op → St
  | .addUser u => { st with users := st.users ++ [u] }
  | .createPromotion payload creator =>
    match create_promotion st payload creator with
    | .ok (st', _) => st'
    | .error _ => st
  | .updatePromotion pid payload =>
    match update_promotion st pid payload with
    | .ok (st', _) => st'
    | .error _ => st
  | .changeStatus pid target =>
    match change_promotion_status st pid target with
    | .ok (st', _) => st'
    | .error _ => st
  | .createSubscription u p =>
    match create_subscription st u p with
    | .ok (st', _) => st'
    | .error _ => st
  | .deactivateSubscription sid =>
    match deactivate_subscription st sid with
    | .ok (st', _) => st'
    | .error _ => st

/-- The state after a sequence of operations. -/
def steps (st : St) : List Op → St
  | [] => st
  | op :: ops => steps (step st op) ops

/-- Position of a status along the one-way lifecycle. -/
def statusIdx : PromotionStatus → Nat
  | .draft => 0
  | .active => 1
  | .ended => 2

/-- Well-formed store: primary keys are unique and below their id sequence. -/
def WF (st : St) : Prop :=
  (∀ p ∈ st.promotions, p.id < st.nextPromotionId) ∧
  (st.promotions.map (fun p => p.id)).Nodup ∧
  (∀ s ∈ st.subscriptions, s.id < st.nextSubscriptionId) ∧
  (st.subscriptions.map (fun s => s.id)).Nodup

instance (st : St) : Decidable (WF st) := by
  unfold WF
  infer_instance

/-- The first supplied field that the editability loop rejects for this
status, if any. -/
def firstNonEditable (status : PromotionStatus) (fs : List String) : Option String :=
  fs.find? (fun f => !((EDITABLE_FIELDS status).contains f))

/-! ## Example stores for the witnesses -/

def exPromoDraft : Promotion :=
  { id := 1, name := "Sale", description := none, status := .draft,
    start_at := 0, end_at := 10, created_at := 0, created_by := 1 }

def exPromoActive : Promotion :=
  { id := 2, name := "Launch", description := some "flash", status := .active,
    start_at := 0, end_at := 10, created_at := 1, created_by := 1 }

def exPromoEnded : Promotion :=
  { id := 3, name := "Old", description := none, status := .ended,
    start_at := 0, end_at := 10, created_at := 2, created_by := 1 }

def exSt : St :=
  { users := [1], promotions := [exPromoDraft, exPromoActive, exPromoEnded],
    subscriptions := [], nextPromotionId := 4, nextSubscriptionId := 1, clock := 3 }

/-- Concrete payloads for the C5 witness. -/
def exCreateBad : PromotionCreatePayload :=
  { name := "X", description := none, start_at := 5, end_at := 5 }

def exCreateGood : PromotionCreatePayload :=
  { name := "Y", description := none, start_at := 0, end_at := 10 }

def exUpdBadRange : PromotionUpdatePayload :=
  { name := none, description := none, start_at := some 7, end_at := some 3 }

def exUpdGoodRange : PromotionUpdatePayload :=
  { name := none, description := none, start_at := some 1, end_at := some 9 }

def exUpdName : PromotionUpdatePayload :=
  { name := some "Renamed", description := some (some "new"), start_at := none, end_at := none }

def exUpdEnd : PromotionUpdatePayload :=
  { name := some "Renamed", description := none, start_at := none, end_at := some 99 }

def exSub : Subscription :=
  { id := 1, user_id := 1, promotion_id := 2, is_active := true, created_at := 3 }

def exSt1 : St :=
  { exSt with subscriptions := [exSub], nextSubscriptionId := 2, clock := 4 }

def exSubOff : Subscription := { exSub with is_active := false }

def exSt2 : St := { exSt1 with subscriptions := [exSubOff] }

/-! ## Helper lemmas about the adapters -/

theorem map_id_of_forall {α : Type _} (f : α → α) :
    ∀ l : List α, (∀ x ∈ l, f x = x) → l.map f = l
  | [], _ => rfl
  | x :: xs, h => by
    rw [List.map_cons, h x (List.mem_cons_self x xs),
      map_id_of_forall f xs (fun y hy => h y (List.mem_cons_of_mem x hy))]

theorem get_promotion_by_id_id {st : St} {pid : Nat} {promo : Promotion}
    (hfind : get_promotion_by_id st pid = some promo) : promo.id = pid := by
  have h := List.find?_some hfind
  simpa using h

theorem get_subscription_by_id_id {st : St} {sid : Nat} {s : Subscription}
    (hfind : get_subscription_by_id st sid = some s) : s.id = sid := by
  have h := List.find?_some hfind
  simpa using h

/-- Reading back after a promotion write-back: the fetched row is the
replaced one exactly when its primary key matches. -/
theorem get_replacePromotion (st : St) (p : Promotion) (pid : Nat) :
    get_promotion_by_id (replacePromotion st p) pid =
      (get_promotion_by_id st pid).map (fun q => if q.id == p.id then p else q) := by
  unfold get_promotion_by_id replacePromotion
  rw [List.find?_map]
  have hfun : ((fun q : Promotion => q.id == pid) ∘ fun q => if q.id == p.id then p else q)
      = (fun q : Promotion => q.id == pid) := by
    funext q
    simp only [Function.comp_apply]
    by_cases h : q.id = p.id
    · simp [h]
    · simp [h]
  rw [hfun]

theorem get_replaceSubscription (st : St) (s : Subscription) (sid : Nat) :
    get_subscription_by_id (replaceSubscription st s) sid =
      (get_subscription_by_id st sid).map (fun t => if t.id == s.id then s else t) := by
  unfold get_subscription_by_id replaceSubscription
  rw [List.find?_map]
  have hfun : ((fun t : Subscription => t.id == sid) ∘ fun t => if t.id == s.id then s else t)
      = (fun t : Subscription => t.id == sid) := by
    funext t
    simp only [Function.comp_apply]
    by_cases h : t.id = s.id
    · simp [h]
    · simp [h]
  rw [hfun]

/-- Writing back the very row that was fetched is a no-op on a store with
unique primary keys. -/
theorem replacePromotion_self {st : St} {pid : Nat} {promo : Promotion}
    (hfind : get_promotion_by_id st pid = some promo)
    (hnd : (st.promotions.map (fun p => p.id)).Nodup) :
    replacePromotion st promo = st := by
  have hmem := List.mem_of_find?_eq_some hfind
  unfold replacePromotion
  have hmap : st.promotions.map (fun q => if q.id == promo.id then promo else q)
      = st.promotions := by
    apply map_id_of_forall
    intro x hx
    by_cases h : x.id = promo.id
    · have hx2 : x = promo := List.inj_on_of_nodup_map hnd hx hmem h
      simp [h, hx2]
    · simp [h]
  rw [hmap]

theorem applyUpdate_status (p : Promotion) (u : PromotionUpdatePayload) :
    (applyUpdate p u).status = p.status := rfl

theorem applyUpdate_id (p : Promotion) (u : PromotionUpdatePayload) :
    (applyUpdate p u).id = p.id := rfl

/-! ## Success-case characterisations of the operations -/

theorem create_promotion_ok_elim {st : St} {payload : PromotionCreatePayload}
    {c : Nat} {st' : St} {p : Promotion}
    (h : create_promotion st payload c = .ok (st', p)) :
    payload.start_at < payload.end_at ∧
    p = { id := st.nextPromotionId, name := payload.name,
          description := payload.description, status := .draft,
          start_at := payload.start_at, end_at := payload.end_at,
          created_at := st.clock, created_by := c } ∧
    st' = { st with promotions := st.promotions ++ [p],
                    nextPromotionId := st.nextPromotionId + 1,
                    clock := st.clock + 1 } := by
  unfold create_promotion at h
  split at h
  next e hv => exact absurd h (by simp)
  next u hv =>
    have hlt : payload.start_at < payload.end_at := by
      unfold validate_time_range at hv
      split at hv
      · exact absurd hv (by simp)
      next hle => exact lt_of_not_le hle
    simp only [promotion_repo_create, Except.ok.injEq, Prod.mk.injEq] at h
    exact ⟨hlt, h.2.symm, by rw [← h.1, ← h.2]⟩

theorem update_promotion_ok_elim {st : St} {pid : Nat}
    {payload : PromotionUpdatePayload} {st' : St} {p : Promotion}
    (h : update_promotion st pid payload = .ok (st', p)) :
    ∃ promo, get_promotion_by_id st pid = some promo ∧
      validate_fields_editable promo.status payload.setFields = .ok () ∧
      p = applyUpdate promo payload ∧
      st' = replacePromotion st p := by
  unfold update_promotion at h
  split at h
  · exact absurd h (by simp)
  next promo hfind =>
    refine ⟨promo, hfind, ?_⟩
    split at h
    next e hv => exact absurd h (by simp)
    next u hv =>
      have hv' : validate_fields_editable promo.status payload.setFields = .ok () := by
        cases u; exact hv
      split at h
      · split at h
        next e htr => exact absurd h (by simp)
        next u2 htr =>
          simp only [Except.ok.injEq, Prod.mk.injEq] at h
          exact ⟨hv', h.2.symm, by rw [← h.1, ← h.2]⟩
      · simp only [Except.ok.injEq, Prod.mk.injEq] at h
        exact ⟨hv', h.2.symm, by rw [← h.1, ← h.2]⟩

theorem change_promotion_status_ok_elim {st : St} {pid : Nat}
    {t : PromotionStatus} {st' : St} {p : Promotion}
    (h : change_promotion_status st pid t = .ok (st', p)) :
    ∃ promo, get_promotion_by_id st pid = some promo ∧
      (promo.status = t ∨ (VALID_TRANSITIONS promo.status).contains t = true) ∧
      p = { promo with status := t } ∧
      st' = replacePromotion st p := by
  unfold change_promotion_status at h
  split at h
  · exact absurd h (by simp)
  next promo hfind =>
    refine ⟨promo, hfind, ?_⟩
    split at h
    next e hv => exact absurd h (by simp)
    next u hv =>
      have hok : promo.status = t ∨ (VALID_TRANSITIONS promo.status).contains t = true := by
        unfold validate_status_transition at hv
        split at hv
        next he => exact Or.inl he
        next he =>
          split at hv
          next hc => exact Or.inr hc
          next hc => exact absurd hv (by simp)
      simp only [Except.ok.injEq, Prod.mk.injEq] at h
      exact ⟨hok, h.2.symm, by rw [← h.1, ← h.2]⟩

theorem create_subscription_ok_elim {st : St} {u p : Nat} {st' : St}
    {sub : Subscription}
    (h : create_subscription st u p = .ok (st', sub)) :
    user_exists st u = true ∧
    (∃ promo, get_promotion_by_id st p = some promo ∧ promo.status = .active) ∧
    get_active_subscription st u p = none ∧
    st.subscriptions.any (fun s => s.user_id == u && s.promotion_id == p) = false ∧
    sub = { id := st.nextSubscriptionId, user_id := u, promotion_id := p,
            is_active := true, created_at := st.clock } ∧
    st' = { st with subscriptions := st.subscriptions ++ [sub],
                    nextSubscriptionId := st.nextSubscriptionId + 1,
                    clock := st.clock + 1 } := by
  unfold create_subscription create_subscription_at at h
  split at h
  next hu => exact absurd h (by simp)
  next hu =>
    have hu' : user_exists st u = true := by simpa using hu
    refine ⟨hu', ?_⟩
    split at h
    · exact absurd h (by simp)
    next promo hfind =>
      split at h
      next hs => exact absurd h (by simp)
      next hs =>
        have hs' : promo.status = PromotionStatus.active := not_not.mp hs
        refine ⟨⟨promo, hfind, hs'⟩, ?_⟩
        split at h
        next s0 hdup => exact absurd h (by simp)
        next hdup =>
          refine ⟨hdup, ?_⟩
          split at h
          next r heq =>
            simp only [Except.ok.injEq] at h
            subst h
            unfold subscription_repo_create at heq
            split at heq
            next hany => exact absurd heq (by simp)
            next hany =>
              have hany' : st.subscriptions.any
                  (fun s => s.user_id == u && s.promotion_id == p) = false := by
                simpa using hany
              refine ⟨hany', ?_⟩
              rw [hfind] at heq
              simp only [Bool.not_true, Option.isNone_some, Bool.false_eq_true,
                if_false, Except.ok.injEq, Prod.mk.injEq] at heq
              exact ⟨heq.2.symm, by rw [← heq.1, ← heq.2]⟩
          next e heq => exact absurd h (by simp)

theorem deactivate_subscription_ok_elim {st : St} {sid : Nat} {st' : St}
    {sub' : Subscription}
    (h : deactivate_subscription st sid = .ok (st', sub')) :
    ∃ s, get_subscription_by_id st sid = some s ∧ s.is_active = true ∧
      sub' = { s with is_active := false } ∧
      st' = replaceSubscription st sub' := by
  unfold deactivate_subscription at h
  split at h
  · exact absurd h (by simp)
  next s hfind =>
    refine ⟨s, hfind, ?_⟩
    split at h
    next ha => exact absurd h (by simp)
    next ha =>
      have ha' : s.is_active = true := by
        cases hb : s.is_active
        · exact absurd hb ha
        · rfl
      simp only [Except.ok.injEq, Prod.mk.injEq] at h
      exact ⟨ha', h.2.symm, by rw [← h.1, ← h.2]⟩

/-! ## The claims -/

/-- Claim C7: for every existing promotion, a `change_status` request whose
target equals the promotion's current status is a no-op success (idempotent
self-transition): it does not fail with InvalidStatusTransition — even when
the current status is the terminal ENDED state, whose allowed-transition set
is empty — and the stored promotion's status and all other fields are the same
after the call as before it (on a store with unique primary keys the store is
bit-for-bit unchanged). -/
theorem claim_C7 (st : St) (pid : Nat) (promo : Promotion)
    (hfind : get_promotion_by_id st pid = some promo) :
    change_promotion_status st pid promo.status =
      .ok (replacePromotion st promo, promo) ∧
    get_promotion_by_id (replacePromotion st promo) pid = some promo ∧
    ((st.promotions.map (fun p => p.id)).Nodup → replacePromotion st promo = st) := by
  have h1 : change_promotion_status st pid promo.status =
      .ok (replacePromotion st promo, promo) := by
    unfold change_promotion_status
    simp only [hfind]
    unfold validate_status_transition
    rw [if_pos rfl]
  have h2 : get_promotion_by_id (replacePromotion st promo) pid = some promo := by
    rw [get_replacePromotion, hfind]
    simp
  exact ⟨h1, h2, fun hnd => replacePromotion_self hfind hnd⟩

/-- Witness for C7 at the terminal ENDED promotion of the example store. -/
theorem claim_C7_witness :
    change_promotion_status exSt 3 PromotionStatus.ended =
      .ok (replacePromotion exSt exPromoEnded, exPromoEnded) ∧
    replacePromotion exSt exPromoEnded = exSt :=
  ⟨(claim_C7 exSt 3 exPromoEnded (by decide)).1,
   (claim_C7 exSt 3 exPromoEnded (by decide)).2.2 (by decide)⟩

/-- Claim C10: for every existing promotion, regardless of its status
(including ENDED with an empty editable-field set), an `update` whose partial
field set is empty succeeds and returns the promotion with every field
unchanged: the editability check is vacuous, the time-range validation is
skipped, and no field value is modified (on a store with unique primary keys
the store is unchanged). -/
theorem claim_C10 (st : St) (pid : Nat) (promo : Promotion)
    (hfind : get_promotion_by_id st pid = some promo) :
    update_promotion st pid
        { name := none, description := none, start_at := none, end_at := none } =
      .ok (replacePromotion st promo, promo) ∧
    get_promotion_by_id (replacePromotion st promo) pid = some promo ∧
    ((st.promotions.map (fun p => p.id)).Nodup → replacePromotion st promo = st) := by
  have h1 : update_promotion st pid
      { name := none, description := none, start_at := none, end_at := none } =
      .ok (replacePromotion st promo, promo) := by
    unfold update_promotion
    simp only [hfind]
    rfl
  have h2 : get_promotion_by_id (replacePromotion st promo) pid = some promo := by
    rw [get_replacePromotion, hfind]
    simp
  exact ⟨h1, h2, fun hnd => replacePromotion_self hfind hnd⟩

/-- Witness for C10: the empty update succeeds on the ENDED promotion and
changes nothing. -/
theorem claim_C10_witness :
    update_promotion exSt 3
        { name := none, description := none, start_at := none, end_at := none } =
      .ok (replacePromotion exSt exPromoEnded, exPromoEnded) ∧
    replacePromotion exSt exPromoEnded = exSt :=
  ⟨(claim_C10 exSt 3 exPromoEnded (by decide)).1,
   (claim_C10 exSt 3 exPromoEnded (by decide)).2.2 (by decide)⟩

/-- Claim C4: create_subscription performs its validations in a fixed order
with a fixed error for each: a missing user id fails with UserNotFound (even
when the promotion is also absent or inactive, since nothing about the
promotion is consulted); then a missing promotion fails with
PromotionNotActive(reason="not_found"); then a non-ACTIVE promotion fails
with PromotionNotActive(reason=current status value); only after all three
checks pass (the third being the active-duplicate pre-check) is the store
create attempted. -/
theorem claim_C4 (st : St) (u p : Nat) :
    (user_exists st u = false →
      create_subscription st u p = .error (.userNotFound u)) ∧
    (user_exists st u = true → get_promotion_by_id st p = none →
      create_subscription st u p = .error (.promotionNotActive p "not_found")) ∧
    (∀ promo, user_exists st u = true → get_promotion_by_id st p = some promo →
      promo.status ≠ .active →
      create_subscription st u p = .error (.promotionNotActive p promo.status.value)) ∧
    (∀ promo, user_exists st u = true → get_promotion_by_id st p = some promo →
      promo.status = .active → get_active_subscription st u p = none →
      create_subscription st u p =
        match subscription_repo_create st u p with
        | .ok r => .ok r
        | .error _ => .error (.duplicateSubscription u p)) := by
  refine ⟨?_, ?_, ?_, ?_⟩
  · intro hu
    unfold create_subscription create_subscription_at
    rw [hu]
    rfl
  · intro hu hp
    unfold create_subscription create_subscription_at
    rw [hu]
    simp only [Bool.not_true, Bool.false_eq_true, if_false, hp]
  · intro promo hu hp hs
    unfold create_subscription create_subscription_at
    rw [hu]
    simp only [Bool.not_true, Bool.false_eq_true, if_false, hp]
    rw [if_pos hs]
  · intro promo hu hp hs hdup
    unfold create_subscription create_subscription_at
    rw [hu]
    simp only [Bool.not_true, Bool.false_eq_true, if_false, hp]
    rw [if_neg (not_not_intro hs)]
    simp only [hdup]

/-- Witness for C4: all four branches at concrete inputs in the example store
(user 9 does not exist, promotion 99 does not exist, promotion 1 is DRAFT,
promotion 2 is ACTIVE). -/
theorem claim_C4_witness :
    create_subscription exSt 9 99 = .error (.userNotFound 9) ∧
    create_subscription exSt 1 99 = .error (.promotionNotActive 99 "not_found") ∧
    create_subscription exSt 1 1 = .error (.promotionNotActive 1 "draft") ∧
    create_subscription exSt 1 2 =
      match subscription_repo_create exSt 1 2 with
      | .ok r => .ok r
      | .error _ => .error (.duplicateSubscription 1 2) :=
  ⟨(claim_C4 exSt 9 99).1 (by decide),
   (claim_C4 exSt 1 99).2.1 (by decide) (by decide),
   (claim_C4 exSt 1 1).2.2.1 exPromoDraft (by decide) (by decide) (by decide),
   (claim_C4 exSt 1 2).2.2.2 exPromoActive (by decide) (by decide) (by decide) (by decide)⟩

/-- Claim C9: every integrity failure raised by the store during the create
step — the uniqueness violation on (user_id, promotion_id), but also any
other integrity-constraint violation such as a foreign-key violation when the
referenced user or promotion row disappears between the validation reads
(state `sVal`) and the insert (state `sIns`) — is translated into
DuplicateSubscription; no integrity failure at that step surfaces as a
distinct error kind. -/
theorem claim_C9 (sVal sIns : St) (u p : Nat) (promo : Promotion)
    (hu : user_exists sVal u = true)
    (hp : get_promotion_by_id sVal p = some promo)
    (hs : promo.status = .active)
    (hdup : get_active_subscription sVal u p = none)
    (k : IntegrityKind)
    (hfail : subscription_repo_create sIns u p = .error k) :
    create_subscription_at sVal sIns u p = .error (.duplicateSubscription u p) := by
  unfold create_subscription_at
  rw [hu]
  simp only [Bool.not_true, Bool.false_eq_true, if_false, hp]
  rw [if_neg (not_not_intro hs)]
  simp only [hdup, hfail]

/-- Witness for C9: the insert-time store lost user 1, so the insert hits the
foreign-key constraint (not the uniqueness one), and the service still
reports DuplicateSubscription. -/
theorem claim_C9_witness :
    subscription_repo_create { exSt with users := [] } 1 2 =
      .error .fkUserViolation ∧
    create_subscription_at exSt { exSt with users := [] } 1 2 =
      .error (.duplicateSubscription 1 2) :=
  ⟨by rfl,
   claim_C9 exSt { exSt with users := [] } 1 2 exPromoActive (by decide) (by decide)
     (by decide) (by decide) .fkUserViolation (by rfl)⟩

/-- Claim C5: the time-range invariant end_at > start_at is enforced on
create and on any update touching either bound: create fails with
InvalidTimeRange whenever end_at <= start_at and otherwise persists the
promotion with status DRAFT; update, whenever start_at or end_at is supplied
(and the supplied fields pass the editability check, which runs first),
computes the effective pair (supplied value if present, stored value
otherwise) and fails with InvalidTimeRange unless the effective end_at is
strictly after the effective start_at. -/
theorem claim_C5 (st : St) :
    (∀ payload creator, payload.end_at ≤ payload.start_at →
      create_promotion st payload creator = .error .invalidTimeRange) ∧
    (∀ payload creator, payload.start_at < payload.end_at →
      ∃ st' promo, create_promotion st payload creator = .ok (st', promo) ∧
        promo.status = .draft ∧ promo.name = payload.name ∧
        promo.description = payload.description ∧
        promo.start_at = payload.start_at ∧ promo.end_at = payload.end_at ∧
        promo.created_by = creator ∧ promo ∈ st'.promotions) ∧
    (∀ pid promo payload, get_promotion_by_id st pid = some promo →
      validate_fields_editable promo.status payload.setFields = .ok () →
      (payload.start_at.isSome || payload.end_at.isSome) = true →
      ((payload.end_at.getD promo.end_at ≤ payload.start_at.getD promo.start_at →
        update_promotion st pid payload = .error .invalidTimeRange) ∧
       (payload.start_at.getD promo.start_at < payload.end_at.getD promo.end_at →
        ∃ st' promo', update_promotion st pid payload = .ok (st', promo')))) := by
  refine ⟨?_, ?_, ?_⟩
  · intro payload creator hle
    unfold create_promotion validate_time_range
    rw [if_pos hle]
  · intro payload creator hlt
    refine ⟨(promotion_repo_create st payload.name payload.description
        payload.start_at payload.end_at creator .draft).1,
      (promotion_repo_create st payload.name payload.description
        payload.start_at payload.end_at creator .draft).2,
      ?_, rfl, rfl, rfl, rfl, rfl, rfl, ?_⟩
    · unfold create_promotion validate_time_range
      rw [if_neg (not_le.mpr hlt)]
    · simp [promotion_repo_create]
  · intro pid promo payload hfind hv hts
    have h1 : update_promotion st pid payload =
        (if payload.end_at.getD promo.end_at ≤ payload.start_at.getD promo.start_at
         then .error .invalidTimeRange
         else .ok (replacePromotion st (applyUpdate promo payload),
                   applyUpdate promo payload)) := by
      unfold update_promotion
      simp only [hfind, hv]
      rw [if_pos hts]
      unfold validate_time_range
      by_cases hc : payload.end_at.getD promo.end_at ≤ payload.start_at.getD promo.start_at
      · rw [if_pos hc, if_pos hc]
      · rw [if_neg hc, if_neg hc]
    constructor
    · intro hle
      rw [h1, if_pos hle]
    · intro hlt
      exact ⟨_, _, by rw [h1, if_neg (not_le.mpr hlt)]⟩

/-- Witness for C5: a create with end_at = start_at fails, a create with a
valid range persists in DRAFT, an update of the DRAFT promotion supplying an
inverted range fails, and one supplying a valid range succeeds. -/
theorem claim_C5_witness :
    create_promotion exSt exCreateBad 1 = .error .invalidTimeRange ∧
    (∃ st' promo, create_promotion exSt exCreateGood 1 = .ok (st', promo) ∧
      promo.status = .draft ∧ promo.name = "Y" ∧
      promo.description = none ∧
      promo.start_at = 0 ∧ promo.end_at = 10 ∧
      promo.created_by = 1 ∧ promo ∈ st'.promotions) ∧
    update_promotion exSt 1 exUpdBadRange = .error .invalidTimeRange ∧
    (∃ st' promo', update_promotion exSt 1 exUpdGoodRange = .ok (st', promo')) :=
  ⟨(claim_C5 exSt).1 exCreateBad 1 (by decide),
   (by
      have h := (claim_C5 exSt).2.1 exCreateGood 1 (by decide)
      simpa using h),
   ((claim_C5 exSt).2.2 1 exPromoDraft exUpdBadRange
      (by decide) (by rfl) (by decide)).1 (by decide),
   ((claim_C5 exSt).2.2 1 exPromoDraft exUpdGoodRange
      (by decide) (by rfl) (by decide)).2 (by decide)⟩

/-- The editability loop fails with NotEditable at exactly the first supplied
field outside the editable set, and succeeds when there is none. -/
theorem validate_fields_editable_eq (status : PromotionStatus) (fs : List String) :
    validate_fields_editable status fs =
      match firstNonEditable status fs with
      | none => .ok ()
      | some f => .error (.notEditable status.value f) := by
  induction fs with
  | nil => rfl
  | cons f fs ih =>
    unfold validate_fields_editable validate_field_editable
    by_cases hc : (EDITABLE_FIELDS status).contains f = true
    · rw [if_pos hc, ih]
      have hfc : firstNonEditable status (f :: fs) = firstNonEditable status fs :=
        List.find?_cons_of_neg _ (by rw [hc]; decide)
      rw [hfc]
    · rw [if_neg hc]
      have hcf : (EDITABLE_FIELDS status).contains f = false := by
        cases hb : (EDITABLE_FIELDS status).contains f with
        | false => rfl
        | true => exact absurd hb hc
      have hfc : firstNonEditable status (f :: fs) = some f :=
        List.find?_cons_of_pos _ (by rw [hcf]; decide)
      rw [hfc]

/-- Claim C3: field editability of update is gated by the current status
(DRAFT: name, description, start_at, end_at; ACTIVE: name, description;
ENDED: nothing): the first supplied field outside the editable set makes
update fail with NotEditable{status, field} without persisting anything; in
particular every non-empty update of an ENDED promotion fails with
NotEditable on its first supplied field, an ACTIVE update touching only
name/description succeeds, and an ACTIVE update touching start_at or end_at
fails naming the first time-range field supplied. -/
theorem claim_C3 (st : St) (pid : Nat) (promo : Promotion)
    (payload : PromotionUpdatePayload)
    (hfind : get_promotion_by_id st pid = some promo) :
    (∀ f, firstNonEditable promo.status payload.setFields = some f →
      update_promotion st pid payload = .error (.notEditable promo.status.value f) ∧
      step st (.updatePromotion pid payload) = st) ∧
    (promo.status = .ended → ∀ f fs, payload.setFields = f :: fs →
      update_promotion st pid payload = .error (.notEditable "ended" f)) ∧
    (promo.status = .active → payload.start_at = none → payload.end_at = none →
      ∃ st' promo', update_promotion st pid payload = .ok (st', promo')) ∧
    (promo.status = .active → (payload.start_at.isSome || payload.end_at.isSome) = true →
      update_promotion st pid payload =
        .error (.notEditable "active"
          (if payload.start_at.isSome then "start_at" else "end_at"))) := by
  have key : ∀ f, firstNonEditable promo.status payload.setFields = some f →
      update_promotion st pid payload = .error (.notEditable promo.status.value f) := by
    intro f hf
    unfold update_promotion
    simp only [hfind, validate_fields_editable_eq, hf]
  refine ⟨?_, ?_, ?_, ?_⟩
  · intro f hf
    refine ⟨key f hf, ?_⟩
    unfold step
    simp only [key f hf]
  · intro hend f fs hsf
    have hf : firstNonEditable promo.status payload.setFields = some f := by
      rw [hend, hsf]
      exact List.find?_cons_of_pos _ (by simp [EDITABLE_FIELDS])
    have h := key f hf
    rw [hend] at h
    exact h
  · intro hact hs0 he0
    obtain ⟨n, d, s, e⟩ := payload
    cases hs0
    cases he0
    have hv : validate_fields_editable promo.status
        (PromotionUpdatePayload.setFields ⟨n, d, none, none⟩) = .ok () := by
      rw [validate_fields_editable_eq, hact]
      have hfe : firstNonEditable .active
          (PromotionUpdatePayload.setFields ⟨n, d, none, none⟩) = none := by
        cases n <;> cases d <;> rfl
      rw [hfe]
    have h1 : update_promotion st pid ⟨n, d, none, none⟩ =
        .ok (replacePromotion st (applyUpdate promo ⟨n, d, none, none⟩),
             applyUpdate promo ⟨n, d, none, none⟩) := by
      unfold update_promotion
      simp only [hfind, hv]
      rfl
    exact ⟨_, _, h1⟩
  · intro hact hts
    obtain ⟨n, d, s, e⟩ := payload
    have hf : firstNonEditable promo.status
        (PromotionUpdatePayload.setFields ⟨n, d, s, e⟩) =
        some (if s.isSome then "start_at" else "end_at") := by
      rw [hact]
      cases n <;> cases d <;> cases s <;> cases e <;> first
        | rfl
        | (exact absurd hts (by simp))
    have h := key _ hf
    rw [hact] at h
    exact h

/-- Witness for C3: an update of the ENDED promotion supplying only `name`
fails with NotEditable("ended","name"); the matching step is a no-op; an
ACTIVE update touching name and description succeeds; an ACTIVE update
touching end_at fails with NotEditable("active","end_at"). -/
theorem claim_C3_witness :
    update_promotion exSt 3 exUpdName = .error (.notEditable "ended" "name") ∧
    step exSt (.updatePromotion 3 exUpdName) = exSt ∧
    (∃ st' promo', update_promotion exSt 2 exUpdName = .ok (st', promo')) ∧
    update_promotion exSt 2 exUpdEnd = .error (.notEditable "active" "end_at") :=
  ⟨(claim_C3 exSt 3 exPromoEnded exUpdName (by decide)).2.1 (by decide) "name"
     ["description"] (by decide),
   ((claim_C3 exSt 3 exPromoEnded exUpdName (by decide)).1 "name" (by decide)).2,
   (claim_C3 exSt 2 exPromoActive exUpdName (by decide)).2.2.1 (by decide) (by decide)
     (by decide),
   (claim_C3 exSt 2 exPromoActive exUpdEnd (by decide)).2.2.2 (by decide) (by decide)⟩

/-- A subscription found before an insert-only append is still found,
unchanged, afterwards (the query takes the first primary-key match). -/
theorem get_subscription_append (st : St) (l : List Subscription) (sid : Nat)
    (sub : Subscription) (h : get_subscription_by_id st sid = some sub) :
    (st.subscriptions ++ l).find? (fun s => s.id == sid) = some sub := by
  unfold get_subscription_by_id at h
  rw [List.find?_append, h]
  rfl

/-- Claim C6: a subscription's is_active flag starts true at creation and
transitions true→false exactly once: deactivate on an active subscription
succeeds and sets is_active to false; deactivate on an inactive subscription
fails with AlreadyInactive leaving the store unchanged; deactivate on a
nonexistent id fails with NotFound; and no operation of the service ever sets
is_active of an existing subscription back to true. -/
theorem claim_C6 (st : St) :
    (∀ u p st' sub, create_subscription st u p = .ok (st', sub) →
      sub.is_active = true) ∧
    (∀ sid sub, get_subscription_by_id st sid = some sub → sub.is_active = true →
      deactivate_subscription st sid =
        .ok (replaceSubscription st { sub with is_active := false },
             { sub with is_active := false }) ∧
      get_subscription_by_id
          (replaceSubscription st { sub with is_active := false }) sid =
        some { sub with is_active := false }) ∧
    (∀ sid sub, get_subscription_by_id st sid = some sub → sub.is_active = false →
      deactivate_subscription st sid = .error (.alreadyInactive sid) ∧
      step st (.deactivateSubscription sid) = st) ∧
    (∀ sid, get_subscription_by_id st sid = none →
      deactivate_subscription st sid = .error (.notFound sid)) ∧
    (∀ op sid sub, get_subscription_by_id st sid = some sub → sub.is_active = false →
      ∃ sub', get_subscription_by_id (step st op) sid = some sub' ∧
        sub'.is_active = false) := by
  refine ⟨?_, ?_, ?_, ?_, ?_⟩
  · intro u p st' sub h
    obtain ⟨-, -, -, -, hsub, -⟩ := create_subscription_ok_elim h
    rw [hsub]
  · intro sid sub hfind hact
    constructor
    · unfold deactivate_subscription
      simp only [hfind]
      rw [if_neg (by simp [hact])]
    · rw [get_replaceSubscription, hfind]
      simp
  · intro sid sub hfind hinact
    have h1 : deactivate_subscription st sid = .error (.alreadyInactive sid) := by
      unfold deactivate_subscription
      simp only [hfind]
      rw [if_pos hinact]
    refine ⟨h1, ?_⟩
    unfold step
    simp only [h1]
  · intro sid hn
    unfold deactivate_subscription
    simp only [hn]
  · intro op sid sub hfind hinact
    cases op with
    | addUser u => exact ⟨sub, hfind, hinact⟩
    | createPromotion payload c =>
      simp only [step]
      cases h : create_promotion st payload c with
      | error e => exact ⟨sub, hfind, hinact⟩
      | ok r =>
        obtain ⟨st2, pnew⟩ := r
        obtain ⟨-, -, hst⟩ := create_promotion_ok_elim h
        subst hst
        exact ⟨sub, hfind, hinact⟩
    | updatePromotion pid payload =>
      simp only [step]
      cases h : update_promotion st pid payload with
      | error e => exact ⟨sub, hfind, hinact⟩
      | ok r =>
        obtain ⟨st2, pnew⟩ := r
        obtain ⟨promo, -, -, -, hst⟩ := update_promotion_ok_elim h
        subst hst
        exact ⟨sub, hfind, hinact⟩
    | changeStatus pid t =>
      simp only [step]
      cases h : change_promotion_status st pid t with
      | error e => exact ⟨sub, hfind, hinact⟩
      | ok r =>
        obtain ⟨st2, pnew⟩ := r
        obtain ⟨promo, -, -, -, hst⟩ := change_promotion_status_ok_elim h
        subst hst
        exact ⟨sub, hfind, hinact⟩
    | createSubscription u p =>
      simp only [step]
      cases h : create_subscription st u p with
      | error e => exact ⟨sub, hfind, hinact⟩
      | ok r =>
        obtain ⟨st2, snew⟩ := r
        obtain ⟨-, -, -, -, -, hst⟩ := create_subscription_ok_elim h
        subst hst
        exact ⟨sub, get_subscription_append st [snew] sid sub hfind, hinact⟩
    | deactivateSubscription sid2 =>
      simp only [step]
      cases h : deactivate_subscription st sid2 with
      | error e => exact ⟨sub, hfind, hinact⟩
      | ok r =>
        obtain ⟨st2, snew⟩ := r
        obtain ⟨s2, -, -, hnew, hst⟩ := deactivate_subscription_ok_elim h
        subst hst
        refine ⟨if sub.id == snew.id then snew else sub, ?_, ?_⟩
        · rw [get_replaceSubscription, hfind]
          rfl
        · by_cases hid : (sub.id == snew.id) = true
          · rw [if_pos hid, hnew]
          · rw [if_neg hid]
            exact hinact

/-- Witness for C6: a fresh subscription is active; deactivating it succeeds
and flips the flag; deactivating again fails with AlreadyInactive; a missing
id fails with NotFound; and a later operation (here a duplicate-refused
create) leaves the flag false. -/
theorem claim_C6_witness :
    create_subscription exSt 1 2 = .ok (exSt1, exSub) ∧
    exSub.is_active = true ∧
    deactivate_subscription exSt1 1 =
      .ok (replaceSubscription exSt1 exSubOff, exSubOff) ∧
    deactivate_subscription exSt2 1 = .error (.alreadyInactive 1) ∧
    deactivate_subscription exSt 5 = .error (.notFound 5) ∧
    (∃ sub', get_subscription_by_id (step exSt2 (.createSubscription 1 2)) 1 =
        some sub' ∧ sub'.is_active = false) :=
  ⟨by rfl,
   (claim_C6 exSt).1 1 2 exSt1 exSub (by rfl),
   ((claim_C6 exSt1).2.1 1 exSub (by decide) (by decide)).1,
   ((claim_C6 exSt2).2.2.1 1 exSubOff (by decide) (by decide)).1,
   (claim_C6 exSt).2.2.2.1 5 (by decide),
   (claim_C6 exSt2).2.2.2.2 (.createSubscription 1 2) 1 exSubOff (by decide) (by decide)⟩

/-- Claim C1: once create_subscription(U, P) has succeeded, every later
sequential create_subscription(U, P) fails with DuplicateSubscription: while
the subscription is still active the service's pre-check of active
subscriptions catches it, and after deactivation the store's unconditional
uniqueness constraint on (user_id, promotion_id) still fires and is
translated into the same DuplicateSubscription error. -/
theorem claim_C1 (st : St) (u p : Nat) (s1 : St) (sub : Subscription)
    (hwf : WF st)
    (hok : create_subscription st u p = .ok (s1, sub)) :
    create_subscription s1 u p = .error (.duplicateSubscription u p) ∧
    ∃ s2, deactivate_subscription s1 sub.id =
        .ok (s2, { sub with is_active := false }) ∧
      create_subscription s2 u p = .error (.duplicateSubscription u p) := by
  obtain ⟨hu, ⟨promo, hp, hact⟩, hdup, hany, hsub, hst⟩ := create_subscription_ok_elim hok
  subst hst
  unfold user_exists at hu
  unfold get_promotion_by_id at hp
  unfold get_active_subscription at hdup
  have hdupfacts := List.find?_eq_none.mp hdup
  constructor
  · unfold create_subscription create_subscription_at user_exists
      get_promotion_by_id get_active_subscription
    simp only [hu, Bool.not_true, Bool.false_eq_true, if_false, hp, hact,
      ne_eq, not_true_eq_false, List.find?_append, hdup, Option.none_or]
    rw [List.find?_cons_of_pos _ (by rw [hsub]; simp)]
  · have hfindsub : List.find? (fun s => s.id == sub.id)
        (st.subscriptions ++ [sub]) = some sub := by
      rw [List.find?_append]
      have hnone : List.find? (fun s => s.id == sub.id) st.subscriptions = none := by
        rw [List.find?_eq_none]
        intro x hx
        have hlt := hwf.2.2.1 x hx
        rw [hsub]
        simp only [Nat.beq_eq_true_eq]
        omega
      rw [hnone, Option.none_or]
      exact List.find?_cons_of_pos _ (by simp)
    refine ⟨replaceSubscription
        { st with subscriptions := st.subscriptions ++ [sub],
                  nextSubscriptionId := st.nextSubscriptionId + 1,
                  clock := st.clock + 1 }
        { sub with is_active := false }, ?_, ?_⟩
    · unfold deactivate_subscription get_subscription_by_id
      simp only [hfindsub]
      rw [if_neg (by rw [hsub]; simp)]
    · unfold create_subscription create_subscription_at user_exists
        get_promotion_by_id get_active_subscription replaceSubscription
      simp only [hu, Bool.not_true, Bool.false_eq_true, if_false, hp, hact,
        ne_eq, not_true_eq_false]
      have hactnone : List.find?
          (fun s => s.user_id == u && s.promotion_id == p && s.is_active)
          ((st.subscriptions ++ [sub]).map
            (fun t => if t.id == ({ sub with is_active := false } : Subscription).id
                      then { sub with is_active := false } else t)) = none := by
        rw [List.find?_eq_none]
        intro x hx
        rw [List.mem_map] at hx
        obtain ⟨t, ht, rfl⟩ := hx
        rcases List.mem_append.mp ht with htl | htr
        · have hlt := hwf.2.2.1 t htl
          have hne : (t.id == ({ sub with is_active := false } : Subscription).id)
              = false := by
            rw [hsub]
            simp only [Nat.beq_eq_true_eq]
            simpa using Nat.ne_of_lt hlt
          rw [if_neg (by rw [hne]; exact Bool.false_ne_true)]
          exact List.find?_eq_none.mp hdup t htl
        · rw [List.mem_singleton] at htr
          subst htr
          rw [if_pos (by simp)]
          simp
      simp only [hactnone]
      unfold subscription_repo_create
      have hanytrue : ((st.subscriptions ++ [sub]).map
          (fun t => if t.id == ({ sub with is_active := false } : Subscription).id
                    then { sub with is_active := false } else t)).any
          (fun s => s.user_id == u && s.promotion_id == p) = true := by
        rw [List.any_eq_true]
        refine ⟨{ sub with is_active := false }, ?_, ?_⟩
        · rw [List.mem_map]
          exact ⟨sub, by simp, by rw [if_pos (by simp)]⟩
        · rw [hsub]
          simp
      simp only [hanytrue, if_true]

/-- Witness for C1: in the example store, user 1 subscribes to the ACTIVE
promotion 2; the second create fails with DuplicateSubscription, and after
deactivating the subscription a third create still fails the same way. -/
theorem claim_C1_witness :
    WF exSt ∧
    create_subscription exSt 1 2 = .ok (exSt1, exSub) ∧
    create_subscription exSt1 1 2 = .error (.duplicateSubscription 1 2) ∧
    (∃ s2, deactivate_subscription exSt1 exSub.id =
        .ok (s2, { exSub with is_active := false }) ∧
      create_subscription s2 1 2 = .error (.duplicateSubscription 1 2)) :=
  ⟨by decide, by rfl,
   (claim_C1 exSt 1 2 exSt1 exSub (by decide) (by rfl)).1,
   (claim_C1 exSt 1 2 exSt1 exSub (by decide) (by rfl)).2⟩

/-- A promotion found before an insert-only append is still the first match
afterwards. -/
theorem get_promotion_append (st : St) (l : List Promotion) (pid : Nat)
    (promo : Promotion) (h : get_promotion_by_id st pid = some promo) :
    (st.promotions ++ l).find? (fun q => q.id == pid) = some promo := by
  unfold get_promotion_by_id at h
  rw [List.find?_append, h]
  rfl

/-- One step of any operation either leaves a promotion's status alone or
advances it along the allowed-transitions table. -/
theorem step_get_promotion (st : St) (pid : Nat) (promo : Promotion) (op : Op)
    (hfind : get_promotion_by_id st pid = some promo) :
    ∃ promo', get_promotion_by_id (step st op) pid = some promo' ∧
      (promo'.status = promo.status ∨
        (VALID_TRANSITIONS promo.status).contains promo'.status = true) := by
  cases op with
  | addUser u => exact ⟨promo, hfind, Or.inl rfl⟩
  | createPromotion payload c =>
    simp only [step]
    cases h : create_promotion st payload c with
    | error e => exact ⟨promo, hfind, Or.inl rfl⟩
    | ok r =>
      obtain ⟨st2, pnew⟩ := r
      obtain ⟨-, -, hst⟩ := create_promotion_ok_elim h
      subst hst
      exact ⟨promo, get_promotion_append st [pnew] pid promo hfind, Or.inl rfl⟩
  | updatePromotion pid2 payload =>
    simp only [step]
    cases h : update_promotion st pid2 payload with
    | error e => exact ⟨promo, hfind, Or.inl rfl⟩
    | ok r =>
      obtain ⟨st2, pnew⟩ := r
      obtain ⟨promo2, hfind2, -, hpnew, hst⟩ := update_promotion_ok_elim h
      subst hst
      refine ⟨if promo.id == pnew.id then pnew else promo, ?_, ?_⟩
      · rw [get_replacePromotion, hfind]
        rfl
      · by_cases hid : (promo.id == pnew.id) = true
        · rw [if_pos hid]
          have hpid : promo.id = pid := get_promotion_by_id_id hfind
          have hpid2 : promo2.id = pid2 := get_promotion_by_id_id hfind2
          have heq : pid = pid2 := by
            have h1 : promo.id = pnew.id := by simpa using hid
            rw [hpnew, applyUpdate_id] at h1
            rw [hpid, hpid2] at h1
            exact h1
          subst heq
          rw [hfind] at hfind2
          obtain rfl : promo = promo2 := Option.some.inj hfind2
          rw [hpnew]
          exact Or.inl (applyUpdate_status promo payload)
        · rw [if_neg hid]
          exact Or.inl rfl
  | changeStatus pid2 t =>
    simp only [step]
    cases h : change_promotion_status st pid2 t with
    | error e => exact ⟨promo, hfind, Or.inl rfl⟩
    | ok r =>
      obtain ⟨st2, pnew⟩ := r
      obtain ⟨promo2, hfind2, htrans, hpnew, hst⟩ := change_promotion_status_ok_elim h
      subst hst
      refine ⟨if promo.id == pnew.id then pnew else promo, ?_, ?_⟩
      · rw [get_replacePromotion, hfind]
        rfl
      · by_cases hid : (promo.id == pnew.id) = true
        · rw [if_pos hid]
          have hpid : promo.id = pid := get_promotion_by_id_id hfind
          have hpid2 : promo2.id = pid2 := get_promotion_by_id_id hfind2
          have heq : pid = pid2 := by
            have h1 : promo.id = pnew.id := by simpa using hid
            rw [hpnew] at h1
            rw [hpid, hpid2] at h1
            exact h1
          subst heq
          rw [hfind] at hfind2
          obtain rfl : promo = promo2 := Option.some.inj hfind2
          rw [hpnew]
          rcases htrans with he | hc
          · exact Or.inl he.symm
          · exact Or.inr hc
        · rw [if_neg hid]
          exact Or.inl rfl
  | createSubscription u p =>
    simp only [step]
    cases h : create_subscription st u p with
    | error e => exact ⟨promo, hfind, Or.inl rfl⟩
    | ok r =>
      obtain ⟨st2, snew⟩ := r
      obtain ⟨-, -, -, -, -, hst⟩ := create_subscription_ok_elim h
      subst hst
      exact ⟨promo, hfind, Or.inl rfl⟩
  | deactivateSubscription sid =>
    simp only [step]
    cases h : deactivate_subscription st sid with
    | error e => exact ⟨promo, hfind, Or.inl rfl⟩
    | ok r =>
      obtain ⟨st2, snew⟩ := r
      obtain ⟨s2, -, -, -, hst⟩ := deactivate_subscription_ok_elim h
      subst hst
      exact ⟨promo, hfind, Or.inl rfl⟩

/-- A stay-or-advance step moves the lifecycle index forward by at most one
and never backward. -/
theorem status_step_le (a b : PromotionStatus)
    (h : b = a ∨ (VALID_TRANSITIONS a).contains b = true) :
    statusIdx a ≤ statusIdx b ∧ statusIdx b ≤ statusIdx a + 1 := by
  rcases h with rfl | hc
  · exact ⟨Nat.le_refl _, Nat.le_succ _⟩
  · cases a <;> cases b <;> revert hc <;> decide

/-- Across any sequence of operations a promotion's lifecycle index never
decreases. -/
theorem steps_get_promotion (st : St) (pid : Nat) (promo : Promotion)
    (ops : List Op) (hfind : get_promotion_by_id st pid = some promo) :
    ∃ promo', get_promotion_by_id (steps st ops) pid = some promo' ∧
      statusIdx promo.status ≤ statusIdx promo'.status := by
  induction ops generalizing st promo with
  | nil => exact ⟨promo, hfind, Nat.le_refl _⟩
  | cons op ops ih =>
    obtain ⟨p1, h1, hrel⟩ := step_get_promotion st pid promo op hfind
    obtain ⟨p2, h2, hle⟩ := ih (step st op) p1 h1
    exact ⟨p2, h2, Nat.le_trans (status_step_le promo.status p1.status hrel).1 hle⟩

/-- Claim C2: promotion status transitions are one-way and monotonic:
change_status on an existing promotion succeeds for a proper transition
exactly when it is in the allowed table, whose pairs are exactly
DRAFT→ACTIVE and ACTIVE→ENDED; every other proper pair fails with
InvalidStatusTransition{current, target} and leaves the store unchanged; and
no reachable sequence of operations ever moves a promotion's status backward
or skips a state (each step advances the lifecycle index by at most one, and
it never decreases). -/
theorem claim_C2 (st : St) (pid : Nat) (promo : Promotion)
    (hfind : get_promotion_by_id st pid = some promo) :
    (∀ s t, (VALID_TRANSITIONS s).contains t = true ↔
      ((s = .draft ∧ t = .active) ∨ (s = .active ∧ t = .ended))) ∧
    (∀ t, promo.status ≠ t → (VALID_TRANSITIONS promo.status).contains t = true →
      change_promotion_status st pid t =
        .ok (replacePromotion st { promo with status := t },
             { promo with status := t })) ∧
    (∀ t, promo.status ≠ t → (VALID_TRANSITIONS promo.status).contains t = false →
      change_promotion_status st pid t =
        .error (.invalidStatusTransition promo.status.value t.value) ∧
      step st (.changeStatus pid t) = st) ∧
    (∀ op, ∃ promo', get_promotion_by_id (step st op) pid = some promo' ∧
      statusIdx promo.status ≤ statusIdx promo'.status ∧
      statusIdx promo'.status ≤ statusIdx promo.status + 1) ∧
    (∀ ops, ∃ promo', get_promotion_by_id (steps st ops) pid = some promo' ∧
      statusIdx promo.status ≤ statusIdx promo'.status) := by
  refine ⟨?_, ?_, ?_, ?_, ?_⟩
  · intro s t
    cases s <;> cases t <;> decide
  · intro t hne hc
    unfold change_promotion_status
    simp only [hfind]
    unfold validate_status_transition
    rw [if_neg hne, if_pos hc]
  · intro t hne hc
    have h1 : change_promotion_status st pid t =
        .error (.invalidStatusTransition promo.status.value t.value) := by
      unfold change_promotion_status
      simp only [hfind]
      unfold validate_status_transition
      rw [if_neg hne, if_neg (by rw [hc]; exact Bool.false_ne_true)]
    refine ⟨h1, ?_⟩
    simp only [step, h1]
  · intro op
    obtain ⟨promo', h1, hrel⟩ := step_get_promotion st pid promo op hfind
    exact ⟨promo', h1, (status_step_le promo.status promo'.status hrel).1,
      (status_step_le promo.status promo'.status hrel).2⟩
  · intro ops
    exact steps_get_promotion st pid promo ops hfind

/-- Witness for C2: in the example store the DRAFT promotion 1 moves to
ACTIVE, the ACTIVE promotion 2 refuses to move back to DRAFT leaving the
store unchanged, the single-step index bound holds for that transition, and
the empty sequence of operations keeps the status. -/
theorem claim_C2_witness :
    change_promotion_status exSt 1 PromotionStatus.active =
      .ok (replacePromotion exSt { exPromoDraft with status := .active },
           { exPromoDraft with status := .active }) ∧
    change_promotion_status exSt 2 PromotionStatus.draft =
      .error (.invalidStatusTransition "active" "draft") ∧
    step exSt (.changeStatus 2 PromotionStatus.draft) = exSt ∧
    (∃ promo', get_promotion_by_id
        (step exSt (.changeStatus 1 PromotionStatus.active)) 1 = some promo' ∧
      statusIdx exPromoDraft.status ≤ statusIdx promo'.status ∧
      statusIdx promo'.status ≤ statusIdx exPromoDraft.status + 1) :=
  ⟨(claim_C2 exSt 1 exPromoDraft (by decide)).2.1 .active (by decide) (by decide),
   ((claim_C2 exSt 2 exPromoActive (by decide)).2.2.1 .draft (by decide) (by decide)).1,
   ((claim_C2 exSt 2 exPromoActive (by decide)).2.2.1 .draft (by decide) (by decide)).2,
   (claim_C2 exSt 1 exPromoDraft (by decide)).2.2.2.1 (.changeStatus 1 .active)⟩

/-- A limit/offset window of a sorted result set is still sorted. -/
theorem paginate_insertionSort_sorted {α : Type _} (r : α → α → Prop)
    [DecidableRel r] [IsTotal α r] [IsTrans α r] (l : List α) (limit offset : Nat) :
    List.Pairwise r (paginate (List.insertionSort r l) limit offset) :=
  List.Pairwise.sublist
    ((List.take_sublist _ _).trans (List.drop_sublist _ _))
    (List.sorted_insertionSort r l)

/-- The window length is the limit capped by what remains after the offset. -/
theorem paginate_length {α : Type _} (xs : List α) (limit offset : Nat) :
    (paginate xs limit offset).length = min limit (xs.length - offset) := by
  unfold paginate
  rw [List.length_take, List.length_drop]

/-- Claim C8: for each list operation (promotions with optional status
filter, subscriptions by user, subscriptions by promotion) and every limit
and offset, the returned total equals the number of rows matching the filter
independent of limit and offset, the returned page is ordered by creation
time descending, and the page length is min(limit, matching rows remaining
after skipping offset of them). -/
theorem claim_C8 (st : St) (limit offset : Nat) :
    (∀ f,
      (list_promotions st f limit offset).2 =
        (st.promotions.filter
          (fun q => match f with
                    | none => true
                    | some s => q.status == s)).length ∧
      (∀ l' o', (list_promotions st f l' o').2 =
        (list_promotions st f limit offset).2) ∧
      List.Pairwise createdDescP (list_promotions st f limit offset).1 ∧
      (list_promotions st f limit offset).1.length =
        min limit ((list_promotions st f limit offset).2 - offset)) ∧
    (∀ uid b,
      (list_by_user st uid b limit offset).2 =
        (st.subscriptions.filter
          (fun s => s.user_id == uid &&
            match b with
            | none => true
            | some v => s.is_active == v)).length ∧
      (∀ l' o', (list_by_user st uid b l' o').2 =
        (list_by_user st uid b limit offset).2) ∧
      List.Pairwise createdDescS (list_by_user st uid b limit offset).1 ∧
      (list_by_user st uid b limit offset).1.length =
        min limit ((list_by_user st uid b limit offset).2 - offset)) ∧
    (∀ pid b,
      (list_by_promotion st pid b limit offset).2 =
        (st.subscriptions.filter
          (fun s => s.promotion_id == pid &&
            match b with
            | none => true
            | some v => s.is_active == v)).length ∧
      (∀ l' o', (list_by_promotion st pid b l' o').2 =
        (list_by_promotion st pid b limit offset).2) ∧
      List.Pairwise createdDescS (list_by_promotion st pid b limit offset).1 ∧
      (list_by_promotion st pid b limit offset).1.length =
        min limit ((list_by_promotion st pid b limit offset).2 - offset)) := by
  refine ⟨?_, ?_, ?_⟩
  · intro f
    refine ⟨rfl, fun l' o' => rfl, ?_, ?_⟩
    · exact paginate_insertionSort_sorted createdDescP _ limit offset
    · simp only [list_promotions]
      rw [paginate_length, List.length_insertionSort]
  · intro uid b
    refine ⟨rfl, fun l' o' => rfl, ?_, ?_⟩
    · exact paginate_insertionSort_sorted createdDescS _ limit offset
    · simp only [list_by_user]
      rw [paginate_length, List.length_insertionSort]
  · intro pid b
    refine ⟨rfl, fun l' o' => rfl, ?_, ?_⟩
    · exact paginate_insertionSort_sorted createdDescS _ limit offset
    · simp only [list_by_promotion]
      rw [paginate_length, List.length_insertionSort]

end PromoPulse
